import Mathlib

/-!
Verification of the per-conversation chat agent (Cloudflare Durable Object).

Shallow embedding of the three source files:
* `worker.js` — `ChatAgent` with web-search augmentation: `detectSearchIntent`,
  `searchWeb`, and `webSocketMessage` (the chat turn pipeline).
* `worker.ts` — `MyAgent.onRequest`, the HTTP chat path that sends the *entire*
  stored history to the model.
* the plain `ChatAgent` variant (same chat path without search).

Modelling conventions:
* Durable-object storage for key `"conversationHistory"` is an
  `Option (List Message)` (`none` = key absent; `storage.get(...) || []`
  is `Option.getD []`).
* A chat turn is embedded as a pure function from the stored history and the
  behaviour of the two external capabilities (search, inference) to the ordered
  trace of its observable actions (`Event`): frames sent on the originating
  WebSocket, the outbound capability calls, and storage writes. Storage writes
  and socket sends are modelled as reliable; the exception sources of the
  `try`/`catch` are `JSON.parse` failure, an absent `content` field
  (`undefined.toLowerCase()` raises), and a rejected `env.AI.run` call.
* JS strings are Lean `String`s; `toLowerCase` is ASCII lowering (all inputs of
  interest are ASCII); `includes` is substring containment;
  `substring(0, n)` takes the first `n` characters.
-/

/-- A stored conversation message, as built in `webSocketMessage`:
`{role, content, timestamp}` plus the `hasSearch` flag that only assistant
messages of the search variant carry. Timestamps are abstract ticks. -/
structure Message where
  role : String
  content : String
  timestamp : Nat
  hasSearch : Option Bool := none
  deriving DecidableEq

/-- One entry of the `messages` array handed to `env.AI.run`
(`{role: msg.role, content: msg.content}`). -/
structure PromptMsg where
  role : String
  content : String
  deriving DecidableEq

/-- One item of `searchResults.data` returned by the Firecrawl search call. -/
structure SearchResult where
  title : String
  url : String
  markdown : Option String
  deriving DecidableEq

/-- A JSON frame the server sends on the originating WebSocket. -/
inductive Frame where
  | status (message : String)
  | search (results : List SearchResult)
  | success (response : String) (messageCount : Nat) (searchUsed : Bool)
  | errorFrame (error : String)
  deriving DecidableEq

/-- One observable action of a chat turn, in program order. -/
inductive Event where
  | sendFrame (f : Frame)
  | searchCall (query : String)
  | aiCall (messages : List PromptMsg)
  | putHistory (h : List Message)
  deriving DecidableEq

/-- The inbound WebSocket message after the `JSON.parse` attempt:
either the parse threw (with the engine's error message), or it yielded an
object whose `type`/`content` fields may each be absent. The handler never
reads `type`; it is carried to state claims about frame kinds. -/
inductive Inbound where
  | malformed (errMsg : String)
  | frame (kind : Option String) (content : Option String)
  deriving DecidableEq

/-- Behaviour of `searchWeb` for one turn: it either returns `null`
(its own `catch` swallows every failure) or a parsed result object. -/
inductive SearchOutcome where
  | failure
  | success (data : List SearchResult)
  deriving DecidableEq

/-- Behaviour of `env.AI.run` for one turn: the call either rejects
(also covering an absent `env.AI` binding) or resolves to an object with the
optional fields `response` and `result.response`. -/
inductive AIOutcome where
  | throws (errMsg : String)
  | returns (response : Option String) (resultResponse : Option String)
  deriving DecidableEq

/-- Everything outside the store that determines one `webSocketMessage` call. -/
structure TurnInput where
  inbound : Inbound
  search : SearchOutcome
  ai : AIOutcome
  now : Nat

/-- ASCII `toLowerCase` on one character. -/
def asciiLower (c : Char) : Char :=
  if 65 ≤ c.toNat ∧ c.toNat ≤ 90 then Char.ofNat (c.toNat + 32) else c

/-- `message.toLowerCase()` as a character list. -/
def lowerChars (s : String) : List Char := s.data.map asciiLower

/-- Whether the first list starts the second (executable). -/
def beginsWith : List Char → List Char → Bool
  | [], _ => true
  | _ :: _, [] => false
  | a :: as, b :: bs => a == b && beginsWith as bs

/-- JS `String.prototype.includes`: substring containment. -/
def containsSub (needle : List Char) : List Char → Bool
  | [] => beginsWith needle []
  | hay@(_ :: t) => beginsWith needle hay || containsSub needle t

/-- The keyword list of `ChatAgent.detectSearchIntent` (worker.js lines 77–81). -/
def searchKeywords : List String :=
  ["search", "find", "look up", "what is", "who is", "where is", "when did",
   "latest", "current", "recent", "news", "information about", "tell me about",
   "price of", "weather", "how to", "tutorial", "guide"]

/-- `ChatAgent.detectSearchIntent` (worker.js lines 76–85): lowercase the
message and test whether any keyword occurs in it. -/
def detectSearchIntent (message : String) : Bool :=
  searchKeywords.any (fun kw => containsSub kw.data (lowerChars message))

/-- JS `a || dflt` on an optional string field: absent and `""` are falsy. -/
def jsOrString (v : Option String) (dflt : String) : String :=
  match v with
  | some s => if s = "" then dflt else s
  | none => dflt

/-- `aiResponse.response || aiResponse.result?.response || "Sorry, I couldn't
process that."` (worker.js line 154). -/
def responseTextOf (response resultResponse : Option String) : String :=
  jsOrString response (jsOrString resultResponse "Sorry, I couldn't process that.")

/-- JS `s.substring(0, n)`. -/
def jsSubstringTo (s : String) (n : Nat) : String := String.mk (s.data.take n)

/-- One iteration of the `forEach` building `searchContext`
(worker.js lines 115–121). -/
def resultSnippet (idx : Nat) (r : SearchResult) : String :=
  "\n" ++ toString (idx + 1) ++ ". " ++ r.title ++ "\n" ++ "URL: " ++ r.url ++ "\n" ++
    (match r.markdown with
     | some md => "Content: " ++ jsSubstringTo md 500 ++ "...\n"
     | none => "")

/-- The `searchContext` string built from a non-empty result list
(worker.js lines 114–121). -/
def buildSearchContext (data : List SearchResult) : String :=
  "\n\nWeb Search Results:\n" ++
    String.join ((data.take 3).enum.map (fun p => resultSnippet p.1 p.2))

/-- The status frame text sent before searching (worker.js line 108). -/
def searchingMsg : String := "🔍 Searching the web..."

/-- The status frame text sent before inference (worker.js line 132). -/
def thinkingMsg : String := "💭 Thinking..."

/-- System directive used when search intent was detected, before the
`searchContext` suffix (worker.js line 136). -/
def searchSystemPromptBase : String :=
  "You are a helpful AI assistant with access to current web information. Use the provided search results to give accurate, up-to-date answers. Always cite your sources when using information from the search results. Be concise and friendly."

/-- System directive of the plain branch (worker.js line 137). -/
def plainSystemPrompt : String := "You are a helpful AI assistant. Be concise and friendly."

/-- `systemPrompt` selection (worker.js lines 135–137). -/
def systemPromptFor (needsSearch : Bool) (searchContext : String) : String :=
  if needsSearch then searchSystemPromptBase ++ searchContext else plainSystemPrompt

/-- JS `history.slice(-n)`: the `n` most recent entries (all of them when
fewer than `n` exist). -/
def lastN (n : Nat) (l : List α) : List α := l.drop (l.length - n)

/-- `{role: msg.role, content: msg.content}` (worker.js lines 144–147). -/
def toPrompt (m : Message) : PromptMsg := ⟨m.role, m.content⟩

/-- The `aiMessages` array handed to `env.AI.run` (worker.js lines 139–148):
the system directive followed by the last ten entries of `history` — which at
this point already ends with the new, not-yet-persisted user message. -/
def aiMessagesFor (history : List Message) (systemPrompt : String) : List PromptMsg :=
  ⟨"system", systemPrompt⟩ :: (lastN 10 history).map toPrompt

/-- The user message pushed onto `history` (worker.js lines 93–98). -/
def userMsg (content : String) (now : Nat) : Message :=
  { role := "user", content := content, timestamp := now, hasSearch := none }

/-- The assistant message pushed onto `history` (worker.js lines 156–162). -/
def assistantMsg (content : String) (now : Nat) (needsSearch : Bool) : Message :=
  { role := "assistant", content := content, timestamp := now, hasSearch := some needsSearch }

/-- The search block of the turn (worker.js lines 100–128): when intent is
detected, send the searching status, call `searchWeb`, and on a non-empty
result list send the top-3 `search` frame and build the context string;
otherwise no events and an empty context. Returns (events, searchContext). -/
def searchPhase (content : String) (s : SearchOutcome) : List Event × String :=
  if detectSearchIntent content then
    match s with
    | SearchOutcome.failure =>
        ([Event.sendFrame (Frame.status searchingMsg), Event.searchCall content], "")
    | SearchOutcome.success data =>
        if 0 < data.length then
          ([Event.sendFrame (Frame.status searchingMsg), Event.searchCall content,
            Event.sendFrame (Frame.search (data.take 3))],
           buildSearchContext data)
        else
          ([Event.sendFrame (Frame.status searchingMsg), Event.searchCall content], "")
  else ([], "")

/-- The inference-and-persist tail of the turn (worker.js lines 150–171):
if `env.AI.run` rejects, the enclosing `catch` sends the error frame and
nothing is persisted; otherwise push the assistant message, persist the
updated history, then send the success frame carrying its length. -/
def aiPhase (history : List Message) (ai : AIOutcome) (now : Nat) (needsSearch : Bool) :
    List Event :=
  match ai with
  | AIOutcome.throws err =>
      [Event.sendFrame (Frame.errorFrame ("Failed to process message: " ++ err))]
  | AIOutcome.returns r rr =>
      let responseText := responseTextOf r rr
      let newHistory := history ++ [assistantMsg responseText now needsSearch]
      [Event.putHistory newHistory,
       Event.sendFrame (Frame.success responseText newHistory.length needsSearch)]

/-- The chat path of `webSocketMessage` for a frame with a present `content`
(worker.js lines 91–171), as its ordered event trace. -/
def chatEvents (store : List Message) (content : String) (s : SearchOutcome)
    (ai : AIOutcome) (now : Nat) : List Event :=
  let history := store ++ [userMsg content now]
  let needsSearch := detectSearchIntent content
  let sp := searchPhase content s
  let aiMessages := aiMessagesFor history (systemPromptFor needsSearch sp.2)
  sp.1 ++ [Event.sendFrame (Frame.status thinkingMsg), Event.aiCall aiMessages]
    ++ aiPhase history ai now needsSearch

/-- Engine-dependent text of the `TypeError` raised by
`undefined.toLowerCase()` when the frame has no `content` field; no verified
property depends on its exact value. -/
def undefinedLowerErr : String :=
  "Cannot read properties of undefined (reading toLowerCase)"

/-- `ChatAgent.webSocketMessage` (worker.js lines 87–180). The `catch` turns a
`JSON.parse` failure, the `TypeError` on an absent `content`, and a rejected
inference call (inside `aiPhase`) into an error frame on the originating
socket; every `ws.send` in the handler targets that socket (the code has no
broadcast). The `kind` field of a parsed frame is never read. -/
def webSocketMessage (store : Option (List Message)) : TurnInput → List Event
  | ⟨Inbound.malformed err, _, _, _⟩ =>
      [Event.sendFrame (Frame.errorFrame ("Failed to process message: " ++ err))]
  | ⟨Inbound.frame _ none, _, _, _⟩ =>
      [Event.sendFrame (Frame.errorFrame ("Failed to process message: " ++ undefinedLowerErr))]
  | ⟨Inbound.frame _ (some content), s, ai, now⟩ =>
      chatEvents (store.getD []) content s ai now

/-- `(await this.ctx.storage.get("conversationHistory")) || []`. -/
def readHistory (s : Option (List Message)) : List Message := s.getD []

/-- The `POST /clear` branch of `ChatAgent.fetch` (worker.js lines 35–40):
`storage.put("conversationHistory", [])`. -/
def clearHistoryOp (_s : Option (List Message)) : Option (List Message) := some []

/-- Replay the storage writes of an event trace over an initial storage value. -/
def storageAfter (s : Option (List Message)) : List Event → Option (List Message)
  | [] => s
  | Event.putHistory h :: rest => storageAfter (some h) rest
  | Event.sendFrame _ :: rest => storageAfter s rest
  | Event.searchCall _ :: rest => storageAfter s rest
  | Event.aiCall _ :: rest => storageAfter s rest

namespace MyAgent

/-- `MyAgent.initialState` (worker.ts lines 12–14). -/
def initialState : List PromptMsg :=
  [⟨"system", "You are a helpful assistant."⟩]

/-- The observable outcome of `MyAgent.onRequest`: the state written by
`setState`, the `messages` array handed to `env.AI.run`, and the JSON body. -/
structure RequestResult where
  history : List PromptMsg
  prompt : List PromptMsg
  reply : String
  historyLength : Nat
  deriving DecidableEq

/-- `MyAgent.onRequest` (worker.ts lines 16–40): push the user message, call
the model with the **entire** history, push the reply
(`aiResponse.response || "I couldn't generate a response."`), persist, and
answer with the reply and the new history length. -/
def onRequest (state : List PromptMsg) (message : String) (aiResponse : Option String) :
    RequestResult :=
  let hist1 := state ++ [⟨"user", message⟩]
  let reply := jsOrString aiResponse "I couldn't generate a response."
  let hist2 := hist1 ++ [⟨"assistant", reply⟩]
  { history := hist2, prompt := hist1, reply := reply, historyLength := hist2.length }

end MyAgent

/-- A concrete store of `n` distinct messages, ordered by timestamp. -/
def sampleStore (n : Nat) : List Message :=
  (List.range n).map (fun i => { role := "user", content := toString i, timestamp := i })

/-- Modelled from the spec's words for the context-builder claim (refinement
comparison only, not translated from the source): a fixed system directive,
then the 10 most recent **stored** messages in chronological order, then the
new not-yet-persisted user message appended last. -/
def specClaimPrompt (store : List Message) (newContent sys : String) : List PromptMsg :=
  ⟨"system", sys⟩ :: ((lastN 10 store).map toPrompt ++ [⟨"user", newContent⟩])

/-- A concrete 12-entry `MyAgent` state (system message plus 11 turns). -/
def sampleTsHistory : List PromptMsg :=
  MyAgent.initialState ++ (List.range 11).map (fun i => ⟨"user", toString i⟩)

/-- The property "processing this turn input raises an exception inside the
`try` block": the parse threw, the frame has no `content`, or the inference
call rejected on a chat frame. -/
def exceptionRaised (inp : TurnInput) : Prop :=
  (∃ e, inp.inbound = Inbound.malformed e)
  ∨ (∃ k, inp.inbound = Inbound.frame k none)
  ∨ (∃ k c e, inp.inbound = Inbound.frame k (some c) ∧ inp.ai = AIOutcome.throws e)

theorem lastN_concat (n : Nat) (l : List α) (a : α) :
    lastN (n + 1) (l ++ [a]) = lastN n l ++ [a] := by
  unfold lastN
  rw [List.length_append, List.drop_append_eq_append_drop]
  have h1 : l.length + [a].length - (n + 1) = l.length - n := by
    simp only [List.length_singleton]; omega
  rw [h1]
  congr 1
  have h2 : l.length - n - l.length = 0 := by omega
  rw [h2, List.drop_zero]

theorem lastN_length_le (n : Nat) (l : List α) : (lastN n l).length ≤ n := by
  simp only [lastN, List.length_drop]
  omega

theorem storageAfter_append (s : Option (List Message)) (l₁ l₂ : List Event) :
    storageAfter s (l₁ ++ l₂) = storageAfter (storageAfter s l₁) l₂ := by
  induction l₁ generalizing s with
  | nil => rfl
  | cons e rest ih => cases e <;> simp [storageAfter, ih]

theorem storageAfter_no_put (s : Option (List Message)) (l : List Event)
    (h : ∀ hh, Event.putHistory hh ∉ l) : storageAfter s l = s := by
  induction l with
  | nil => rfl
  | cons e rest ih =>
    have hrest : ∀ hh, Event.putHistory hh ∉ rest :=
      fun hh hm => h hh (List.mem_cons_of_mem _ hm)
    cases e with
    | sendFrame f => simpa [storageAfter] using ih hrest
    | searchCall q => simpa [storageAfter] using ih hrest
    | aiCall m => simpa [storageAfter] using ih hrest
    | putHistory hh => exact absurd (List.mem_cons_self _ _) (h hh)

theorem searchPhase_shape (c : String) (s : SearchOutcome) :
    (searchPhase c s).1 = []
    ∨ (searchPhase c s).1
        = [Event.sendFrame (Frame.status searchingMsg), Event.searchCall c]
    ∨ ∃ rs, (searchPhase c s).1
        = [Event.sendFrame (Frame.status searchingMsg), Event.searchCall c,
           Event.sendFrame (Frame.search rs)] := by
  unfold searchPhase
  split
  · cases s with
    | failure => right; left; rfl
    | success data =>
      dsimp only
      by_cases hd : 0 < data.length
      · rw [if_pos hd]
        exact Or.inr (Or.inr ⟨data.take 3, rfl⟩)
      · rw [if_neg hd]
        right; left; rfl
  · left; rfl

theorem put_not_mem_searchPhase (c : String) (s : SearchOutcome) (hh : List Message) :
    Event.putHistory hh ∉ (searchPhase c s).1 := by
  rcases searchPhase_shape c s with h | h | ⟨rs, h⟩ <;> rw [h] <;> simp

theorem success_not_mem_searchPhase (c : String) (s : SearchOutcome)
    (text : String) (n : Nat) (b : Bool) :
    Event.sendFrame (Frame.success text n b) ∉ (searchPhase c s).1 := by
  rcases searchPhase_shape c s with h | h | ⟨rs, h⟩ <;> rw [h] <;> simp

theorem aiCall_not_mem_searchPhase (c : String) (s : SearchOutcome)
    (msgs : List PromptMsg) :
    Event.aiCall msgs ∉ (searchPhase c s).1 := by
  rcases searchPhase_shape c s with h | h | ⟨rs, h⟩ <;> rw [h] <;> simp

theorem chatEvents_eq (store : List Message) (c : String) (s : SearchOutcome)
    (ai : AIOutcome) (now : Nat) :
    chatEvents store c s ai now
      = ((searchPhase c s).1
          ++ [Event.sendFrame (Frame.status thinkingMsg),
              Event.aiCall (aiMessagesFor (store ++ [userMsg c now])
                (systemPromptFor (detectSearchIntent c) (searchPhase c s).2))])
        ++ aiPhase (store ++ [userMsg c now]) ai now (detectSearchIntent c) := by
  simp [chatEvents, List.append_assoc]

theorem put_not_mem_chatEvents_throws (store : List Message) (c : String)
    (s : SearchOutcome) (e : String) (now : Nat) (hh : List Message) :
    Event.putHistory hh ∉ chatEvents store c s (AIOutcome.throws e) now := by
  rw [chatEvents_eq]
  intro hm
  rcases List.mem_append.mp hm with hm | hm
  · rcases List.mem_append.mp hm with hm | hm
    · exact put_not_mem_searchPhase c s hh hm
    · simp at hm
  · simp [aiPhase] at hm

theorem aiPhase_throws (history : List Message) (e : String) (now : Nat) (ns : Bool) :
    aiPhase history (AIOutcome.throws e) now ns
      = [Event.sendFrame (Frame.errorFrame ("Failed to process message: " ++ e))] := rfl

theorem aiPhase_returns (history : List Message) (r rr : Option String) (now : Nat) (ns : Bool) :
    aiPhase history (AIOutcome.returns r rr) now ns
      = [Event.putHistory (history ++ [assistantMsg (responseTextOf r rr) now ns]),
         Event.sendFrame (Frame.success (responseTextOf r rr)
           (history ++ [assistantMsg (responseTextOf r rr) now ns]).length ns)] := rfl

/-- C1 (corrected, counterexample): against a concrete store of 25 messages the
prompt the claim describes — system directive, then the 10 most recent stored
messages, then the new user message — is not the prompt the code hands to the
inference call: no `aiCall` with that message list occurs in the turn's trace
(the code truncates to 10 *after* appending the new user message, so only the
9 most recent stored messages survive). -/
theorem c1_counterexample :
    Event.aiCall (specClaimPrompt (sampleStore 25) "hello" plainSystemPrompt)
      ∉ webSocketMessage (some (sampleStore 25))
          ⟨Inbound.frame none (some "hello"), SearchOutcome.failure,
           AIOutcome.returns (some "ok") none, 0⟩ := by decide

/-- C1 (corrected, amended): for a chat turn against a store of 25 messages
with `maxMessages = 10`, the prompt handed to the inference capability is a
fixed system directive first, then the **9** most recent stored messages in
chronological order, then the new not-yet-persisted user message last — the
slice of 10 is taken from the history *after* the new message is appended. -/
theorem c1_amended_context_window (store : List Message) (_h : store.length = 25)
    (k : Option String) (c : String) (s : SearchOutcome) (ai : AIOutcome) (t : Nat) :
    ∃ sys, Event.aiCall
        (⟨"system", sys⟩ :: ((lastN 9 store).map toPrompt ++ [⟨"user", c⟩]))
        ∈ webSocketMessage (some store) ⟨Inbound.frame k (some c), s, ai, t⟩ := by
  refine ⟨systemPromptFor (detectSearchIntent c) (searchPhase c s).2, ?_⟩
  have h10 : lastN 10 (store ++ [userMsg c t]) = lastN 9 store ++ [userMsg c t] := by
    have h9 := lastN_concat 9 store (userMsg c t)
    norm_num at h9
    exact h9
  have hmsgs : aiMessagesFor (store ++ [userMsg c t])
      (systemPromptFor (detectSearchIntent c) (searchPhase c s).2)
      = ⟨"system", systemPromptFor (detectSearchIntent c) (searchPhase c s).2⟩
          :: ((lastN 9 store).map toPrompt ++ [⟨"user", c⟩]) := by
    unfold aiMessagesFor
    rw [h10, List.map_append]
    rfl
  show Event.aiCall _ ∈ chatEvents store c s ai t
  rw [chatEvents_eq, ← hmsgs]
  exact List.mem_append_left _ (List.mem_append_right _ (by simp))

/-- Witness for the amended C1 theorem at a concrete 25-message store. -/
theorem c1_witness :
    (sampleStore 25).length = 25
    ∧ ∃ sys, Event.aiCall
        (⟨"system", sys⟩ :: ((lastN 9 (sampleStore 25)).map toPrompt ++ [⟨"user", "hello"⟩]))
        ∈ webSocketMessage (some (sampleStore 25))
            ⟨Inbound.frame none (some "hello"), SearchOutcome.failure,
             AIOutcome.returns (some "ok") none, 0⟩ :=
  ⟨by decide,
   c1_amended_context_window (sampleStore 25) (by decide) none "hello"
     SearchOutcome.failure (AIOutcome.returns (some "ok") none) 0⟩

/-- C2 (corrected, counterexample): when the inference call rejects, the turn's
whole trace is the thinking status, the inference attempt, and an error frame —
the delivered reply is not drawn from any keyword fallback table (none exists
in the code) and nothing is persisted: storage still holds the pre-turn
(empty) history. -/
theorem c2_counterexample :
    webSocketMessage (some [])
        ⟨Inbound.frame none (some "hello"), SearchOutcome.failure,
         AIOutcome.throws "AI capability unavailable", 0⟩
      = [Event.sendFrame (Frame.status thinkingMsg),
         Event.aiCall [⟨"system", plainSystemPrompt⟩, ⟨"user", "hello"⟩],
         Event.sendFrame
           (Frame.errorFrame "Failed to process message: AI capability unavailable")]
    ∧ storageAfter (some [])
        (webSocketMessage (some [])
          ⟨Inbound.frame none (some "hello"), SearchOutcome.failure,
           AIOutcome.throws "AI capability unavailable", 0⟩)
      = some [] := by
  exact ⟨by decide, by decide⟩

/-- C2 (corrected, amended): when the inference call throws, the turn ends in
an error frame (`"Failed to process message: " ++ detail`) and nothing is
persisted; when the call resolves but yields no usable output the reply is the
fixed default text `"Sorry, I couldn't process that."`, which *is* persisted
as an assistant message and delivered in the success frame. There is no
keyword-based fallback table. -/
theorem c2_amended_failure_paths (store? : Option (List Message)) (k : Option String)
    (c : String) (s : SearchOutcome) (err : String) (t : Nat) :
    (storageAfter store?
        (webSocketMessage store? ⟨Inbound.frame k (some c), s, AIOutcome.throws err, t⟩)
        = store?
      ∧ (webSocketMessage store? ⟨Inbound.frame k (some c), s, AIOutcome.throws err, t⟩).getLast?
          = some (Event.sendFrame (Frame.errorFrame ("Failed to process message: " ++ err))))
    ∧ (storageAfter store?
        (webSocketMessage store? ⟨Inbound.frame k (some c), s, AIOutcome.returns none none, t⟩)
        = some (store?.getD []
            ++ [userMsg c t,
                assistantMsg "Sorry, I couldn't process that." t (detectSearchIntent c)])
      ∧ ∃ n, Event.sendFrame
            (Frame.success "Sorry, I couldn't process that." n (detectSearchIntent c))
          ∈ webSocketMessage store? ⟨Inbound.frame k (some c), s, AIOutcome.returns none none, t⟩) := by
  refine ⟨⟨?_, ?_⟩, ?_, ?_⟩
  · exact storageAfter_no_put _ _ (fun hh => put_not_mem_chatEvents_throws _ _ _ _ _ hh)
  · show (chatEvents (store?.getD []) c s (AIOutcome.throws err) t).getLast? = _
    rw [chatEvents_eq, aiPhase_throws]
    exact List.getLast?_concat _
  · show storageAfter store?
        (chatEvents (store?.getD []) c s (AIOutcome.returns none none) t) = _
    rw [chatEvents_eq, aiPhase_returns, storageAfter_append]
    show some _ = _
    rw [List.append_assoc]
    rfl
  · refine ⟨((store?.getD [] ++ [userMsg c t])
      ++ [assistantMsg (responseTextOf none none) t (detectSearchIntent c)]).length, ?_⟩
    show Event.sendFrame _ ∈ chatEvents (store?.getD []) c s (AIOutcome.returns none none) t
    rw [chatEvents_eq, aiPhase_returns]
    exact List.mem_append_right _ (List.mem_cons_of_mem _ (List.mem_singleton.mpr rfl))

/-- C4 (corrected, counterexample): a parsed frame whose kind is the unknown
`"bogus_kind"` is processed as an ordinary chat turn — the trace ends in a
success frame and a persisted two-message history, with no error frame —
because the handler never inspects the frame kind. -/
theorem c4_counterexample :
    webSocketMessage (some [])
        ⟨Inbound.frame (some "bogus_kind") (some "hi"), SearchOutcome.failure,
         AIOutcome.returns (some "Hello!") none, 0⟩
      = [Event.sendFrame (Frame.status thinkingMsg),
         Event.aiCall [⟨"system", plainSystemPrompt⟩, ⟨"user", "hi"⟩],
         Event.putHistory [userMsg "hi" 0, assistantMsg "Hello!" 0 false],
         Event.sendFrame (Frame.success "Hello!" 2 false)] := by decide

/-- C4 (corrected, amended): there is no frame-kind dispatch at all — the
handler's behaviour is independent of the frame's kind field; every parsed
frame with a `content` field is processed as chat, and a frame without one
yields a structured error frame (the handler throws on the absent field and
the `catch` reports it), never a crash. -/
theorem c4_amended_no_kind_dispatch (store? : Option (List Message)) (k₁ k₂ : Option String)
    (c? : Option String) (s : SearchOutcome) (ai : AIOutcome) (t : Nat) :
    webSocketMessage store? ⟨Inbound.frame k₁ c?, s, ai, t⟩
      = webSocketMessage store? ⟨Inbound.frame k₂ c?, s, ai, t⟩
    ∧ webSocketMessage store? ⟨Inbound.frame k₁ none, s, ai, t⟩
      = [Event.sendFrame (Frame.errorFrame
          ("Failed to process message: " ++ undefinedLowerErr))] := by
  refine ⟨?_, rfl⟩
  cases c? <;> rfl

/-- C7 (confirmed): the search-intent detector answers `true` on
`"what is the capital of France"` (keyword `"what is"`) and `false` on
`"thanks!"` (no keyword occurs). -/
theorem c7_detectIntent_examples :
    detectSearchIntent "what is the capital of France" = true
    ∧ detectSearchIntent "thanks!" = false :=
  ⟨by decide, by decide⟩

/-- C8 (confirmed): after the clear operation, reading the stored history
yields the empty sequence, and clearing again leaves storage unchanged —
clearing is idempotent. -/
theorem c8_clear_history_idempotent (s : Option (List Message)) :
    readHistory (clearHistoryOp s) = []
    ∧ clearHistoryOp (clearHistoryOp s) = clearHistoryOp s :=
  ⟨rfl, rfl⟩

/-- C3 (confirmed): for every inbound frame whose processing raises an
exception — a malformed (non-JSON) message, a frame without a `content`
field, or a rejected inference call — the exception is caught, the trace ends
in an error frame on the originating socket (the handler sends to no other
session), the persisted history is exactly what it was before the frame
arrived, and the actor processes any subsequent frame exactly as it would
have without the bad one. -/
theorem c3_exception_isolated (store? : Option (List Message)) (inp : TurnInput)
    (h : exceptionRaised inp) :
    storageAfter store? (webSocketMessage store? inp) = store?
    ∧ (∃ m, (webSocketMessage store? inp).getLast?
        = some (Event.sendFrame (Frame.errorFrame m)))
    ∧ (∀ inp2, webSocketMessage (storageAfter store? (webSocketMessage store? inp)) inp2
        = webSocketMessage store? inp2) := by
  obtain ⟨inb, s, ai, now⟩ := inp
  have main : storageAfter store? (webSocketMessage store? ⟨inb, s, ai, now⟩) = store?
      ∧ ∃ m, (webSocketMessage store? ⟨inb, s, ai, now⟩).getLast?
          = some (Event.sendFrame (Frame.errorFrame m)) := by
    rcases h with ⟨e, he⟩ | ⟨k, he⟩ | ⟨k, c, e, he, hai⟩
    · simp only at he
      subst he
      exact ⟨rfl, ⟨"Failed to process message: " ++ e, rfl⟩⟩
    · simp only at he
      subst he
      exact ⟨rfl, ⟨"Failed to process message: " ++ undefinedLowerErr, rfl⟩⟩
    · simp only at he hai
      subst he
      subst hai
      refine ⟨storageAfter_no_put _ _
        (fun hh => put_not_mem_chatEvents_throws _ _ _ _ _ hh), ?_⟩
      refine ⟨"Failed to process message: " ++ e, ?_⟩
      show (chatEvents (store?.getD []) c s (AIOutcome.throws e) now).getLast? = _
      rw [chatEvents_eq, aiPhase_throws]
      exact List.getLast?_concat _
  exact ⟨main.1, main.2, fun inp2 => by rw [main.1]⟩

/-- Witness for C3 at a concrete malformed frame over an empty store. -/
theorem c3_witness :
    exceptionRaised ⟨Inbound.malformed "Unexpected token", SearchOutcome.failure,
        AIOutcome.returns none none, 0⟩
    ∧ (storageAfter (some [])
          (webSocketMessage (some [])
            ⟨Inbound.malformed "Unexpected token", SearchOutcome.failure,
             AIOutcome.returns none none, 0⟩) = some []
      ∧ (∃ m, (webSocketMessage (some [])
            ⟨Inbound.malformed "Unexpected token", SearchOutcome.failure,
             AIOutcome.returns none none, 0⟩).getLast?
          = some (Event.sendFrame (Frame.errorFrame m)))
      ∧ (∀ inp2, webSocketMessage
            (storageAfter (some [])
              (webSocketMessage (some [])
                ⟨Inbound.malformed "Unexpected token", SearchOutcome.failure,
                 AIOutcome.returns none none, 0⟩)) inp2
          = webSocketMessage (some []) inp2)) :=
  ⟨Or.inl ⟨"Unexpected token", rfl⟩,
   c3_exception_isolated (some [])
     ⟨Inbound.malformed "Unexpected token", SearchOutcome.failure,
      AIOutcome.returns none none, 0⟩
     (Or.inl ⟨"Unexpected token", rfl⟩)⟩

/-- C5 (corrected, counterexample): the `MyAgent.onRequest` chat path of
`worker.ts` sends the **entire** stored history to the inference capability —
on a 12-entry stored history the prompt has 13 entries, exceeding the
system-directive-plus-10 bound, and contains the whole stored history. -/
theorem c5_counterexample :
    ¬ (MyAgent.onRequest sampleTsHistory "hi" (some "ok")).prompt.length ≤ 11
    ∧ (MyAgent.onRequest sampleTsHistory "hi" (some "ok")).prompt
        = sampleTsHistory ++ [⟨"user", "hi"⟩] :=
  ⟨by decide, rfl⟩

/-- C5 (corrected, amended): on the `ChatAgent` WebSocket chat path every
prompt handed to the inference capability is bounded — at most the system
directive plus the 10 most recent history entries (11 messages) — but the
`MyAgent.onRequest` path of `worker.ts` sends the entire stored history plus
the new user message, unbounded. -/
theorem c5_amended_bounded_vs_full (store? : Option (List Message)) (inp : TurnInput)
    (st : List PromptMsg) (msg : String) (air : Option String) :
    (∀ msgs, Event.aiCall msgs ∈ webSocketMessage store? inp → msgs.length ≤ 11)
    ∧ (MyAgent.onRequest st msg air).prompt = st ++ [⟨"user", msg⟩] := by
  constructor
  · intro msgs hm
    obtain ⟨inb, s, ai, now⟩ := inp
    cases inb with
    | malformed e =>
      rw [show webSocketMessage store? ⟨Inbound.malformed e, s, ai, now⟩
          = [Event.sendFrame (Frame.errorFrame ("Failed to process message: " ++ e))]
          from rfl] at hm
      simp at hm
    | frame k c? =>
      cases c? with
      | none =>
        rw [show webSocketMessage store? ⟨Inbound.frame k none, s, ai, now⟩
            = [Event.sendFrame (Frame.errorFrame
                ("Failed to process message: " ++ undefinedLowerErr))] from rfl] at hm
        simp at hm
      | some c =>
        rw [show webSocketMessage store? ⟨Inbound.frame k (some c), s, ai, now⟩
            = chatEvents (store?.getD []) c s ai now from rfl, chatEvents_eq] at hm
        rcases List.mem_append.mp hm with hm | hm
        · rcases List.mem_append.mp hm with hm | hm
          · exact absurd hm (aiCall_not_mem_searchPhase c s msgs)
          · simp only [List.mem_cons, List.not_mem_nil, or_false] at hm
            rcases hm with hm | hm
            · exact absurd hm (by simp)
            · have hmsgs : msgs = aiMessagesFor (store?.getD [] ++ [userMsg c now])
                  (systemPromptFor (detectSearchIntent c) (searchPhase c s).2) :=
                Event.aiCall.inj hm
              subst hmsgs
              have hle := lastN_length_le 10 (store?.getD [] ++ [userMsg c now])
              simp only [aiMessagesFor, List.length_cons, List.length_map]
              omega
        · cases ai with
          | throws e =>
            rw [aiPhase_throws] at hm
            simp at hm
          | returns r rr =>
            rw [aiPhase_returns] at hm
            simp at hm
  · rfl

/-- C6 (confirmed): for a chat turn with detected search intent whose search
call fails (or returns an empty result list), the turn degrades silently to
unaugmented chat — the trace contains no error frame and no search-results
frame, the inference call is made with the bare search system directive (no
search context injected), and the success reply is still delivered. -/
theorem c6_search_failure_degrades (store? : Option (List Message)) (k : Option String)
    (c : String) (s : SearchOutcome) (r rr : Option String) (t : Nat)
    (hIntent : detectSearchIntent c = true)
    (hs : s = SearchOutcome.failure ∨ s = SearchOutcome.success []) :
    (∀ m, Event.sendFrame (Frame.errorFrame m)
        ∉ webSocketMessage store? ⟨Inbound.frame k (some c), s, AIOutcome.returns r rr, t⟩)
    ∧ (∀ rs, Event.sendFrame (Frame.search rs)
        ∉ webSocketMessage store? ⟨Inbound.frame k (some c), s, AIOutcome.returns r rr, t⟩)
    ∧ Event.aiCall (aiMessagesFor (store?.getD [] ++ [userMsg c t]) searchSystemPromptBase)
        ∈ webSocketMessage store? ⟨Inbound.frame k (some c), s, AIOutcome.returns r rr, t⟩
    ∧ (∃ n, Event.sendFrame (Frame.success (responseTextOf r rr) n true)
        ∈ webSocketMessage store? ⟨Inbound.frame k (some c), s, AIOutcome.returns r rr, t⟩) := by
  have hsp : searchPhase c s
      = ([Event.sendFrame (Frame.status searchingMsg), Event.searchCall c], "") := by
    rcases hs with rfl | rfl <;> simp [searchPhase, hIntent]
  have hevs : webSocketMessage store? ⟨Inbound.frame k (some c), s, AIOutcome.returns r rr, t⟩
      = [Event.sendFrame (Frame.status searchingMsg), Event.searchCall c,
         Event.sendFrame (Frame.status thinkingMsg),
         Event.aiCall (aiMessagesFor (store?.getD [] ++ [userMsg c t]) searchSystemPromptBase),
         Event.putHistory ((store?.getD [] ++ [userMsg c t])
           ++ [assistantMsg (responseTextOf r rr) t true]),
         Event.sendFrame (Frame.success (responseTextOf r rr)
           ((store?.getD [] ++ [userMsg c t])
             ++ [assistantMsg (responseTextOf r rr) t true]).length true)] := by
    show chatEvents (store?.getD []) c s (AIOutcome.returns r rr) t = _
    rw [chatEvents_eq, aiPhase_returns, hsp, hIntent]
    simp [systemPromptFor]
  rw [hevs]
  refine ⟨?_, ?_, ?_, ?_⟩
  · intro m
    simp
  · intro rs
    simp
  · simp
  · exact ⟨((store?.getD [] ++ [userMsg c t])
      ++ [assistantMsg (responseTextOf r rr) t true]).length, by simp⟩

/-- Witness for C6 at the concrete query `"what is x"` with a failing search
call over an empty store. -/
theorem c6_witness :
    detectSearchIntent "what is x" = true
    ∧ ((∀ m, Event.sendFrame (Frame.errorFrame m)
          ∉ webSocketMessage (some [])
              ⟨Inbound.frame none (some "what is x"), SearchOutcome.failure,
               AIOutcome.returns (some "ok") none, 0⟩)
      ∧ (∀ rs, Event.sendFrame (Frame.search rs)
          ∉ webSocketMessage (some [])
              ⟨Inbound.frame none (some "what is x"), SearchOutcome.failure,
               AIOutcome.returns (some "ok") none, 0⟩)
      ∧ Event.aiCall (aiMessagesFor ((some [] : Option (List Message)).getD []
            ++ [userMsg "what is x" 0]) searchSystemPromptBase)
          ∈ webSocketMessage (some [])
              ⟨Inbound.frame none (some "what is x"), SearchOutcome.failure,
               AIOutcome.returns (some "ok") none, 0⟩
      ∧ (∃ n, Event.sendFrame (Frame.success (responseTextOf (some "ok") none) n true)
          ∈ webSocketMessage (some [])
              ⟨Inbound.frame none (some "what is x"), SearchOutcome.failure,
               AIOutcome.returns (some "ok") none, 0⟩)) :=
  ⟨by decide,
   c6_search_failure_degrades (some []) none "what is x" SearchOutcome.failure
     (some "ok") none 0 (by decide) (Or.inl rfl)⟩

/-- C9 (confirmed): every successfully processed chat frame's trace is some
prefix containing no storage write and no success frame, followed by the
write of the updated history and only then the success frame — the updated
history is durably stored strictly before the success reply is delivered, and
no success frame is ever sent while storage still holds the pre-turn
history. -/
theorem c9_persist_before_notify (store? : Option (List Message)) (k : Option String)
    (c : String) (s : SearchOutcome) (r rr : Option String) (t : Nat) :
    ∃ pre text hist,
      webSocketMessage store? ⟨Inbound.frame k (some c), s, AIOutcome.returns r rr, t⟩
        = pre ++ [Event.putHistory hist,
                  Event.sendFrame (Frame.success text hist.length (detectSearchIntent c))]
      ∧ (∀ hh, Event.putHistory hh ∉ pre)
      ∧ (∀ text2 n b, Event.sendFrame (Frame.success text2 n b) ∉ pre) := by
  refine ⟨(searchPhase c s).1
      ++ [Event.sendFrame (Frame.status thinkingMsg),
          Event.aiCall (aiMessagesFor (store?.getD [] ++ [userMsg c t])
            (systemPromptFor (detectSearchIntent c) (searchPhase c s).2))],
    responseTextOf r rr,
    (store?.getD [] ++ [userMsg c t])
      ++ [assistantMsg (responseTextOf r rr) t (detectSearchIntent c)],
    ?_, ?_, ?_⟩
  · show chatEvents (store?.getD []) c s (AIOutcome.returns r rr) t = _
    rw [chatEvents_eq, aiPhase_returns]
  · intro hh hm
    rcases List.mem_append.mp hm with hm | hm
    · exact put_not_mem_searchPhase c s hh hm
    · simp at hm
  · intro text2 n b hm
    rcases List.mem_append.mp hm with hm | hm
    · exact success_not_mem_searchPhase c s text2 n b hm
    · simp at hm

/-- C10 (confirmed): every successfully processed chat frame appends exactly
two messages to the stored history — first a `user` message carrying the
client's content, then an `assistant` message carrying the reply — the
success frame's `messageCount` equals the length of the newly stored history,
and the only storage write of the turn is that history (so no other roles are
ever persisted by the chat path). -/
theorem c10_chat_appends_exactly_two (store? : Option (List Message)) (k : Option String)
    (c : String) (s : SearchOutcome) (r rr : Option String) (t : Nat) :
    ∃ u a hist,
      u.role = "user" ∧ u.content = c
      ∧ a.role = "assistant" ∧ a.content = responseTextOf r rr
      ∧ hist = store?.getD [] ++ [u, a]
      ∧ storageAfter store?
          (webSocketMessage store? ⟨Inbound.frame k (some c), s, AIOutcome.returns r rr, t⟩)
          = some hist
      ∧ Event.sendFrame (Frame.success a.content hist.length (detectSearchIntent c))
          ∈ webSocketMessage store? ⟨Inbound.frame k (some c), s, AIOutcome.returns r rr, t⟩
      ∧ (∀ hh, Event.putHistory hh
            ∈ webSocketMessage store? ⟨Inbound.frame k (some c), s, AIOutcome.returns r rr, t⟩
            → hh = hist) := by
  refine ⟨userMsg c t, assistantMsg (responseTextOf r rr) t (detectSearchIntent c),
    (store?.getD [] ++ [userMsg c t])
      ++ [assistantMsg (responseTextOf r rr) t (detectSearchIntent c)],
    rfl, rfl, rfl, rfl, by rw [List.append_assoc]; rfl, ?_, ?_, ?_⟩
  · show storageAfter store?
        (chatEvents (store?.getD []) c s (AIOutcome.returns r rr) t) = _
    rw [chatEvents_eq, aiPhase_returns, storageAfter_append]
    rfl
  · show Event.sendFrame _ ∈ chatEvents (store?.getD []) c s (AIOutcome.returns r rr) t
    rw [chatEvents_eq, aiPhase_returns]
    exact List.mem_append_right _ (List.mem_cons_of_mem _ (List.mem_singleton.mpr rfl))
  · intro hh hm
    rw [show webSocketMessage store? ⟨Inbound.frame k (some c), s, AIOutcome.returns r rr, t⟩
        = chatEvents (store?.getD []) c s (AIOutcome.returns r rr) t from rfl,
      chatEvents_eq, aiPhase_returns] at hm
    rcases List.mem_append.mp hm with hm | hm
    · rcases List.mem_append.mp hm with hm | hm
      · exact absurd hm (put_not_mem_searchPhase c s hh)
      · simp at hm
    · simp only [List.mem_cons, List.not_mem_nil, or_false] at hm
      rcases hm with hm | hm
      · exact Event.putHistory.inj hm
      · exact absurd hm (by simp)
